import Mathlib

/-!
Shallow embedding of the session / streaming-chat controller of
`agent-chat-ui` (the `StreamProvider` in the chat provider module and
`src/lib/auth.ts`).  Pure fragments of the TypeScript source are
translated into executable Lean functions; the React state cells
(`messages`, `isLoading`, `error`, tokens, `abortRef`, …) become fields
of explicit state records, and each straight-line state-mutating block
of the source becomes a state-transformer function.  `uuidv4()` calls
are modelled by a counter supply (`nextUuid`), and `AbortController`
handles by natural-number handle ids together with the set of aborted
ids.  All text is ASCII in every claim, so JavaScript strings (UTF-16)
are modelled by Lean `String` / `List Char` without loss.
-/

namespace AgentChat

/-- The ASCII part of JavaScript's whitespace class (used by
`String.prototype.trim`, `trimEnd` and the regex class `\s`), plus
NBSP and the BOM which JavaScript also treats as whitespace. -/
def isJsWs (c : Char) : Bool :=
  c = ' ' || c = '\t' || c = '\n' || c = '\r' || c = '\x0b' || c = '\x0c' ||
  c = ' ' || c = '﻿'

/-- JavaScript `s.trimEnd()` on a character list. -/
def trimEndChars (cs : List Char) : List Char :=
  (cs.reverse.dropWhile isJsWs).reverse

/-- JavaScript `s.trim()` on a character list. -/
def jsTrimChars (cs : List Char) : List Char :=
  trimEndChars (cs.dropWhile isJsWs)

/-- JavaScript `s.split("\n\n")`: left-to-right scan, splitting at each
non-overlapping occurrence of the two-character separator.  `acc` holds
the (reversed) characters of the piece currently being read. -/
def splitBlank (acc : List Char) : List Char → List (List Char)
  | [] => [acc.reverse]
  | [c] => [(c :: acc).reverse]
  | c1 :: c2 :: rest =>
    if c1 = '\n' ∧ c2 = '\n' then acc.reverse :: splitBlank [] rest
    else splitBlank (c1 :: acc) (c2 :: rest)

/-- JavaScript `s.split("\n")`. -/
def splitNl (acc : List Char) : List Char → List (List Char)
  | [] => [acc.reverse]
  | c :: rest =>
    if c = '\n' then acc.reverse :: splitNl [] rest
    else splitNl (c :: acc) rest

/-- Whether the two-character blank-line separator `"\n\n"` occurs in
the character list (scanning exactly like `splitBlank`). -/
def hasBlankSep : List Char → Bool
  | c1 :: c2 :: rest =>
    if c1 = '\n' ∧ c2 = '\n' then true else hasBlankSep (c2 :: rest)
  | _ => false

/-! ### A model of `JSON.parse`

The stream loop calls `JSON.parse` on each `data:` payload and only
ever reads the `content` and `done` properties of the result.  We embed
a recursive-descent parser for the JSON fragment actually exchanged by
this protocol: `null`, booleans, integer numbers, strings with the
simple escapes, arrays and flat-or-nested objects.  (Floating-point
numbers, exponents and `\u` escapes never occur in this protocol and
are rejected by the model parser; any payload that the model parser
accepts is parsed identically by `JSON.parse`.) -/

inductive JVal where
  | jnull
  | jbool (b : Bool)
  | jnum (n : Int)
  | jstr (s : List Char)
  | jarr (elems : List JVal)
  | jobj (fields : List (List Char × JVal))

/-- The simple JSON string escape table: each escape letter with the
character it denotes (no `\u` escapes: they never occur in this
protocol; an unsupported escape makes the parse fail). -/
def escTable : List (Char × Char) :=
  [('"', '"'), ('\\', '\\'), ('/', '/'), ('n', '\n'),
   ('t', '\t'), ('r', '\r'), ('b', '\x08'), ('f', '\x0c')]

/-- Resolve one escape letter through the table. -/
def escChar (e : Char) : Option Char := escTable.lookup e

/-- Parse the body of a JSON string literal (the opening quote already
consumed), returning the decoded characters and the remaining input. -/
def pStrBody : List Char → Option (List Char × List Char)
  | [] => none
  | '"' :: rest => some ([], rest)
  | '\\' :: e :: rest =>
    (escChar e).bind fun c =>
      (pStrBody rest).map fun p => (c :: p.1, p.2)
  | c :: rest => (pStrBody rest).map fun p => (c :: p.1, p.2)

/-- Decimal digits to a natural number. -/
def digitsToNat (acc : Nat) : List Char → Nat
  | [] => acc
  | c :: rest => digitsToNat (acc * 10 + (c.toNat - '0'.toNat)) rest

/-- Parse a JSON integer numeral. -/
def pNum (cs : List Char) : Option (Int × List Char) :=
  match cs with
  | '-' :: rest =>
    let p := rest.span (·.isDigit)
    if p.1.isEmpty then none else some (-(digitsToNat 0 p.1 : Int), p.2)
  | _ =>
    let p := cs.span (·.isDigit)
    if p.1.isEmpty then none else some ((digitsToNat 0 p.1 : Int), p.2)

mutual

/-- Parse one JSON value (fuelled; the fuel bounds nesting depth).
The literal keywords are recognised with a word-prefix test rather
than by pattern matching each letter. -/
def pVal : Nat → List Char → Option (JVal × List Char)
  | 0, _ => none
  | fuel + 1, cs =>
    let t := cs.dropWhile isJsWs
    if ("null".data).isPrefixOf t then some (.jnull, t.drop 4)
    else if ("true".data).isPrefixOf t then some (.jbool true, t.drop 4)
    else if ("false".data).isPrefixOf t then some (.jbool false, t.drop 5)
    else
      match t with
      | '"' :: rest => (pStrBody rest).map fun p => (.jstr p.1, p.2)
      | '{' :: rest =>
        (match rest.dropWhile isJsWs with
         | '}' :: r => some (.jobj [], r)
         | other => (pFields fuel other).map fun p => (.jobj p.1, p.2))
      | '[' :: rest =>
        (match rest.dropWhile isJsWs with
         | ']' :: r => some (.jarr [], r)
         | other => (pElems fuel other).map fun p => (.jarr p.1, p.2))
      | other => (pNum other).map fun p => (.jnum p.1, p.2)

/-- Parse the members of a JSON object (after `{`), up to `}`. -/
def pFields : Nat → List Char → Option (List (List Char × JVal) × List Char)
  | 0, _ => none
  | fuel + 1, cs =>
    match cs.dropWhile isJsWs with
    | '"' :: rest =>
      (pStrBody rest).bind fun kp =>
        match kp.2.dropWhile isJsWs with
        | ':' :: r2 =>
          (pVal fuel r2).bind fun vp =>
            match vp.2.dropWhile isJsWs with
            | ',' :: r4 => (pFields fuel r4).map fun p => ((kp.1, vp.1) :: p.1, p.2)
            | '}' :: r4 => some ([(kp.1, vp.1)], r4)
            | _ => none
        | _ => none
    | _ => none

/-- Parse the elements of a JSON array (after `[`), up to `]`. -/
def pElems : Nat → List Char → Option (List JVal × List Char)
  | 0, _ => none
  | fuel + 1, cs =>
    (pVal fuel cs).bind fun vp =>
      match vp.2.dropWhile isJsWs with
      | ',' :: r2 => (pElems fuel r2).map fun p => (vp.1 :: p.1, p.2)
      | ']' :: r2 => some ([vp.1], r2)
      | _ => none

end

/-- Model of `JSON.parse` on a whole payload: one value, then only trailing
whitespace; anything else throws in JavaScript, modelled as `none`. -/
def jsonParse (cs : List Char) : Option JVal :=
  match pVal (cs.length + 1) cs with
  | some (v, rest) => if (rest.dropWhile isJsWs).isEmpty then some v else none
  | none => none

/-- JavaScript property read `obj.key` for the decoded payload: only
objects carry properties; on anything else the read yields `undefined`
(here `none`; the stream loop never reads properties of `null` because
of its `if (!data) continue` guard, and `none` gives the same
falsy-skip behaviour). -/
def JVal.lookupField (v : JVal) (key : List Char) : Option JVal :=
  match v with
  | .jobj fields => fields.lookup key
  | _ => none

/-- JavaScript truthiness of a decoded JSON value. -/
def JVal.truthy : JVal → Bool
  | .jnull => false
  | .jbool b => b
  | .jnum n => n != 0
  | .jstr s => !s.isEmpty
  | .jarr _ => true
  | .jobj _ => true

mutual

/-- JavaScript string coercion of a decoded JSON value (used when the
payload's `content` is concatenated onto the message text; the backend
only ever sends strings, for which this is the identity). -/
def JVal.jsString : JVal → List Char
  | .jnull => "null".data
  | .jbool true => "true".data
  | .jbool false => "false".data
  | .jnum n => (toString n).data
  | .jstr s => s
  | .jarr es => jsStringList es
  | .jobj _ => "[object Object]".data

/-- Array-to-string coercion: elements joined with commas. -/
def jsStringList : List JVal → List Char
  | [] => []
  | [v] => JVal.jsString v
  | v :: rest => JVal.jsString v ++ ',' :: jsStringList rest

end

/-! ### Data model -/

/-- The `ChatMessage.role` values.  (Source: `"user" | "assistant" | "system"`.) -/
inductive Role where
  | user
  | assistant
  | system
deriving DecidableEq

/-- A `ChatMessage` of the provider; the `uuidv4()` identifiers are
modelled by natural numbers drawn from a counter supply. -/
structure ChatMessage where
  id : Nat
  role : Role
  content : String
deriving DecidableEq

/-- One entry of the history endpoint's `messages` array. -/
structure HistoryMsg where
  role : Role
  content : String
deriving DecidableEq

/-- A `SessionItem` (the constant `token_type: "bearer"` is elided). -/
structure SessionItem where
  session_id : String
  name : String
  access_token : String
  expires_at : String
deriving DecidableEq

/-- The provider's state cells, plus the model of `AbortController`
handles: `abortRef` holds the id of the currently installed handle,
`abortedHandles` the ids on which `.abort()` has been called,
`nextHandle` / `nextUuid` are the fresh-id supplies.  The three
`stored*` fields model the `localStorage` keys written by
`src/lib/auth.ts`. -/
structure AppState where
  userToken : Option String
  sessionToken : Option String
  storedUserToken : Option String
  storedSessionToken : Option String
  storedSessionId : Option String
  sessions : List SessionItem
  currentSessionId : Option String
  messages : List ChatMessage
  error : Option String
  isLoading : Bool
  historyLoaded : Bool
  abortRef : Option Nat
  abortedHandles : List Nat
  nextHandle : Nat
  nextUuid : Nat
deriving DecidableEq

/-! ### Stream decoding (the read loop of `sendMessage`)

The per-stream state: the carry `buffer` between chunks plus the cells
the loop body writes (`messages` via `setMessages`, `isLoading` via
`setIsLoading`, and the `error` slot, which the loop body never
touches).  The assistant-message id of the stream is a parameter. -/

structure StreamSt where
  buffer : List Char
  messages : List ChatMessage
  isLoading : Bool
  error : Option String
deriving DecidableEq

/-- The `setMessages` call of the loop body: append the payload content
to every message whose id is the stream's assistant-message id, leave
every other message untouched. -/
def applyContentEvent (assistantId : Nat) (c : String) (msgs : List ChatMessage) :
    List ChatMessage :=
  msgs.map fun m =>
    if m.id = assistantId then { m with content := m.content ++ c } else m

/-- The body of `for (const line of lines)`: skip lines without the
`data:` literal, trim the remainder, skip empty payloads, `JSON.parse`
(a failure yields `data = null`, skipped), handle `done` then `content`. -/
def processLine (assistantId : Nat) (st : StreamSt) (line : List Char) : StreamSt :=
  if ("data:".data).isPrefixOf line then
    let payload := jsTrimChars (line.drop 5)
    if payload.isEmpty then st
    else
      match jsonParse payload with
      | none => st
      | some data =>
        if (data.lookupField "done".data).elim false JVal.truthy then
          { st with isLoading := false }
        else
          match data.lookupField "content".data with
          | some v =>
            if v.truthy then
              { st with messages :=
                  applyContentEvent assistantId (String.mk v.jsString) st.messages }
            else st
          | none => st
  else st

/-- The body of `for (const part of parts)`: split the complete event
on single newlines and run each line. -/
def processPart (assistantId : Nat) (st : StreamSt) (part : List Char) : StreamSt :=
  (splitNl [] part).foldl (processLine assistantId) st

/-- One iteration of the read loop on a decoded chunk: extend the carry
buffer, split on blank lines, keep the trailing (possibly incomplete)
piece as the new buffer — JavaScript's `buffer = parts.pop() ?? ""` —
and process the complete events. -/
def processChunk (assistantId : Nat) (st : StreamSt) (chunk : List Char) : StreamSt :=
  let parts := splitBlank [] (st.buffer ++ chunk)
  (parts.dropLast).foldl (processPart assistantId)
    { st with buffer := parts.getLast?.getD [] }

/-- The whole read loop: the chunk list is the sequence of decoded
reads; the loop ends exactly when the transport signals end-of-data
(the end of the list), whatever the buffer still holds. -/
def runChunks (assistantId : Nat) (st : StreamSt) (chunks : List (List Char)) : StreamSt :=
  chunks.foldl (processChunk assistantId) st

/-! ### Controller operations -/

/-- Operation `stop()`: abort and drop the installed cancellation handle, if any,
and clear the loading flag. -/
def stop (st : AppState) : AppState :=
  match st.abortRef with
  | some h =>
    { st with abortedHandles := h :: st.abortedHandles, abortRef := none,
              isLoading := false }
  | none => { st with isLoading := false }

/-- Operation `logout()`: `stop()`, `clearStoredTokens()` (which removes the
user-token, session-token and session-id storage keys), then clear the
in-memory tokens, session list, active session id, message log, error
slot and the history-loaded flag. -/
def logout (st : AppState) : AppState :=
  let st1 := stop st
  { st1 with
    storedUserToken := none
    storedSessionToken := none
    storedSessionId := none
    sessionToken := none
    userToken := none
    sessions := []
    currentSessionId := none
    messages := []
    error := none
    historyLoaded := false }

/-- The 401/403 branch of `loadHistory`: `logout()` followed by
`setError("Session expired. Please log in again.")`. -/
def historyAuthFailure (st : AppState) : AppState :=
  { logout st with error := some "Session expired. Please log in again." }

/-- Model of `data.messages.map((msg) => ({ id: uuidv4(), role: msg.role,
content: msg.content }))`: each entry gets the next fresh identifier
from the supply, in order. -/
def assignFreshIds (next : Nat) : List HistoryMsg → List ChatMessage
  | [] => []
  | h :: t => { id := next, role := h.role, content := h.content } :: assignFreshIds (next + 1) t

/-- The success tail of `loadHistory`: `data` is the decoded response
body (`none` models an absent `messages` field).  The guard
`if (data?.messages?.length)` runs `setMessages` only when the returned
list is present and non-empty; otherwise the log is left as it is. -/
def applyHistorySuccess (st : AppState) (data : Option (List HistoryMsg)) : AppState :=
  match data with
  | some msgs =>
    if msgs.length ≠ 0 then
      { st with messages := assignFreshIds st.nextUuid msgs,
                nextUuid := st.nextUuid + msgs.length }
    else st
  | none => st

/-- The synchronous phase of `sendMessage(text)` before any network
call is issued (source lines up to and including the optimistic
`setMessages((prev) => [...prev, userMessage, assistantMessage])`):
reject when logged out, when the trimmed text is empty, or when it
exceeds 3000 characters; otherwise clear the error, set loading, and
append the user message (trimmed text) and the empty assistant
placeholder, each with a fresh identifier. -/
def sendMessageLocalPhase (st : AppState) (text : String) : AppState :=
  if st.userToken = none then
    { st with error := some "Please log in to start chatting." }
  else
    let trimmed := String.mk (jsTrimChars text.data)
    if trimmed = "" then st
    else if trimmed.length > 3000 then
      { st with error := some "Message too long (max 3000 characters)." }
    else
      { st with
        error := none
        isLoading := true
        messages := st.messages ++
          [ { id := st.nextUuid, role := .user, content := trimmed },
            { id := st.nextUuid + 1, role := .assistant, content := "" } ]
        nextUuid := st.nextUuid + 2 }

/-- The handle-installation step of `sendMessage` immediately before
the stream request (`const controller = new AbortController();
abortRef.current = controller;`): a fresh handle is installed in the
ref, replacing whatever handle was there.  No `.abort()` is called. -/
def installStreamHandle (st : AppState) : AppState :=
  { st with abortRef := some st.nextHandle, nextHandle := st.nextHandle + 1 }

/-! ### Session-name derivation -/

/-- Source constant `SESSION_NAME_MAX_LENGTH`. -/
def SESSION_NAME_MAX_LENGTH : Nat := 40

/-- The ellipsis marker appended on truncation (the source file's
literal, kept byte-for-byte). -/
def sessionNameEllipsis : String := "â€¦"

/-- Model of `replace(/\s+/g, " ")`: every maximal run of whitespace becomes a
single space.  `prevWs` records whether the previous character belonged
to a run already replaced. -/
def collapseWs (prevWs : Bool) : List Char → List Char
  | [] => []
  | c :: rest =>
    if isJsWs c then
      if prevWs then collapseWs true rest else ' ' :: collapseWs true rest
    else c :: collapseWs false rest

/-- Function `deriveSessionName`: trim, collapse whitespace runs, empty gives
the empty label, short labels pass through, long ones are cut to the
first 40 characters, right-trimmed, with the ellipsis marker added. -/
def deriveSessionName (text : String) : String :=
  let trimmed := String.mk (collapseWs false (jsTrimChars text.data))
  if trimmed = "" then ""
  else if trimmed.length ≤ SESSION_NAME_MAX_LENGTH then trimmed
  else String.mk (trimEndChars (trimmed.data.take SESSION_NAME_MAX_LENGTH)) ++ sessionNameEllipsis

/-! ### Concrete states and inputs used by the claims -/

/-- A logged-in state with an active session holding an empty log:
the state right after selecting a fresh session. -/
def baseState : AppState :=
  { userToken := some "u"
    sessionToken := some "s"
    storedUserToken := some "u"
    storedSessionToken := some "s"
    storedSessionId := some "sid"
    sessions := [{ session_id := "sid", name := "n", access_token := "s", expires_at := "e" }]
    currentSessionId := some "sid"
    messages := []
    error := none
    isLoading := false
    historyLoaded := true
    abortRef := none
    abortedHandles := []
    nextHandle := 0
    nextUuid := 0 }

/-- A logged-in state with a non-retired cancellation handle (id 0)
installed by a prior send whose stream is still in flight. -/
def c1State : AppState :=
  { baseState with abortRef := some 0, nextHandle := 1, isLoading := true }

/-- The byte sequence of claim C2 (all ASCII, so bytes = characters). -/
def c2Input : List Char :=
  "data: \x7b\"content\":\"ab\"\x7d\n\ndata: \x7b\"content\":\"cd\"\x7d\n\n".data

/-- The stream state right after the optimistic append: a user message
and the empty assistant placeholder (the stream's id is 1). -/
def c2Start : StreamSt :=
  { buffer := []
    messages := [ { id := 0, role := .user, content := "hi" },
                  { id := 1, role := .assistant, content := "" } ]
    isLoading := true
    error := none }

/-- A state whose log still holds one prior entry. -/
def c3State : AppState :=
  { baseState with messages := [{ id := 0, role := .user, content := "old" }], nextUuid := 1 }

/-! ### Helper lemmas -/

/-- When the blank-line separator does not occur, the split returns the
whole input as its single (trailing) piece. -/
theorem splitBlank_of_no_sep :
    ∀ cs : List Char, hasBlankSep cs = false →
      ∀ acc, splitBlank acc cs = [acc.reverse ++ cs] := by
  intro cs
  induction cs with
  | nil => intro _ acc; simp [splitBlank]
  | cons c rest ih =>
    intro h acc
    cases rest with
    | nil => simp [splitBlank]
    | cons c2 r2 =>
      by_cases hc : c = '\n' ∧ c2 = '\n'
      · simp only [hasBlankSep, if_pos hc] at h
        exact absurd h (by decide)
      · simp only [hasBlankSep, if_neg hc] at h
        simp only [splitBlank, if_neg hc]
        rw [ih h (c :: acc)]
        simp

/-- The identifiers assigned to a replayed history are fresh: each
resulting message keeps its entry's role and content (in order) and
carries an id drawn at or beyond the supply position. -/
theorem assignFreshIds_spec :
    ∀ (l : List HistoryMsg) (next : Nat),
      List.Forall₂ (fun (hm : HistoryMsg) (m : ChatMessage) =>
        m.role = hm.role ∧ m.content = hm.content ∧ next ≤ m.id)
        l (assignFreshIds next l) := by
  intro l
  induction l with
  | nil => intro next; exact List.Forall₂.nil
  | cons hd tl ih =>
    intro next
    refine List.Forall₂.cons ⟨rfl, rfl, Nat.le_refl _⟩ ?_
    exact (ih (next + 1)).imp fun hm m hh => ⟨hh.1, hh.2.1, Nat.le_of_succ_le hh.2.2⟩

/-- Every message produced by the replay has an id at or beyond the
supply position. -/
theorem assignFreshIds_mem_le :
    ∀ (l : List HistoryMsg) (next : Nat) (m : ChatMessage),
      m ∈ assignFreshIds next l → next ≤ m.id := by
  intro l
  induction l with
  | nil => intro next m hm; cases hm
  | cons hd tl ih =>
    intro next m hm
    rcases List.mem_cons.mp hm with h | h
    · subst h; exact Nat.le_refl _
    · exact Nat.le_of_succ_le (ih (next + 1) m h)

/-- The identifiers assigned to a replayed history are pairwise
strictly increasing (in particular pairwise distinct). -/
theorem assignFreshIds_pairwise :
    ∀ (l : List HistoryMsg) (next : Nat),
      (assignFreshIds next l).Pairwise (fun a b => a.id < b.id) := by
  intro l
  induction l with
  | nil => intro next; simp [assignFreshIds]
  | cons hd tl ih =>
    intro next
    refine List.Pairwise.cons ?_ (ih (next + 1))
    intro m hm
    exact Nat.lt_of_lt_of_le (Nat.lt_succ_self next) (assignFreshIds_mem_le tl (next + 1) m hm)

/-! ### The claims -/

/-- C1 (counterexample): in a state with an in-flight stream — a
non-retired cancellation handle (id 0) installed by a prior send — the
handle-installation step of a new `sendMessage` (source:
`const controller = new AbortController(); abortRef.current =
controller;`) replaces the handle with a fresh one (id 1) but does not
abort handle 0, so the claim that invoking `sendMessage` again retires
the previous handle before issuing the new stream request is false on
the code. -/
theorem c1_counterexample :
    c1State.abortRef = some 0 ∧ c1State.abortedHandles = [] ∧
    (installStreamHandle c1State).abortRef = some 1 ∧
    0 ∉ (installStreamHandle c1State).abortedHandles := by
  decide

/-- C1 (amended): invoking `sendMessage` again installs a fresh
cancellation handle that replaces — without aborting — the previous
one, so the previous stream is not cancelled by a new send; an abort of
the installed handle happens only through `stop()` (invoked directly,
or from `logout`, `selectSession` or `deleteSession`), which retires it
and clears the loading flag. -/
theorem c1_amended (st : AppState) :
    (installStreamHandle st).abortRef = some st.nextHandle ∧
    (installStreamHandle st).abortedHandles = st.abortedHandles ∧
    (∀ h, st.abortRef = some h →
      (stop st).abortedHandles = h :: st.abortedHandles ∧
      (stop st).abortRef = none ∧ (stop st).isLoading = false) := by
  refine ⟨rfl, rfl, fun h hh => ?_⟩
  simp [stop, hh]

/-- C1 witness: the amended statement evaluated in the concrete
in-flight state. -/
theorem c1_amended_witness :
    (installStreamHandle c1State).abortedHandles = [] ∧
    (stop c1State).abortedHandles = [0] := by
  refine ⟨(c1_amended c1State).2.1.trans rfl, ?_⟩
  exact ((c1_amended c1State).2.2 0 rfl).1.trans rfl

/-- C2: for every way of splitting the 48-byte sequence
`"data: {\"content\":\"ab\"}\n\ndata: {\"content\":\"cd\"}\n\n"` into
two chunks, running the decode loop from the optimistic state appends
exactly `"abcd"` to the assistant message (id 1) and touches nothing
else, independent of the split point. -/
theorem c2_split_independence :
    ∀ i ≤ c2Input.length,
      (runChunks 1 c2Start [c2Input.take i, c2Input.drop i]).messages =
        [ { id := 0, role := .user, content := "hi" },
          { id := 1, role := .assistant, content := "abcd" } ] := by
  decide

/-- C2 witness: the split at byte 7 (inside the first event's payload)
evaluated. -/
theorem c2_split_independence_witness :
    7 ≤ c2Input.length ∧
    (runChunks 1 c2Start [c2Input.take 7, c2Input.drop 7]).messages =
      [ { id := 0, role := Role.user, content := "hi" },
        { id := 1, role := Role.assistant, content := "abcd" } ] :=
  ⟨by decide, c2_split_independence 7 (by decide)⟩

/-- C3 (counterexample): a successful history response whose message
list is empty does not replace the log — the guard
`if (data?.messages?.length)` skips `setMessages` on a zero length, so
the prior entry survives, contradicting the claim that on every
successful response the log is replaced and no prior entry survives. -/
theorem c3_counterexample :
    (applyHistorySuccess c3State (some [])).messages =
      [{ id := 0, role := Role.user, content := "old" }] ∧
    (applyHistorySuccess c3State (some [])).messages ≠ [] := by
  decide

/-- C3 (amended): when the history load for the activated session
succeeds with a non-empty returned list, the in-memory log is replaced
by exactly that list — each entry given a freshly generated local
identifier (drawn at or beyond the supply position, pairwise distinct),
in the server-given order, and, provided all prior log entries carried
identifiers below the supply position, no prior entry survives; when
the response carries no list or an empty list the state is unchanged. -/
theorem c3_amended (st : AppState) (msgs : List HistoryMsg) (h : msgs ≠ []) :
    List.Forall₂ (fun (hm : HistoryMsg) (m : ChatMessage) =>
        m.role = hm.role ∧ m.content = hm.content ∧ st.nextUuid ≤ m.id)
      msgs (applyHistorySuccess st (some msgs)).messages ∧
    (applyHistorySuccess st (some msgs)).messages.Pairwise (fun a b => a.id < b.id) ∧
    ((∀ m ∈ st.messages, m.id < st.nextUuid) →
      ∀ m ∈ (applyHistorySuccess st (some msgs)).messages, m ∉ st.messages) ∧
    applyHistorySuccess st none = st ∧
    applyHistorySuccess st (some []) = st := by
  have hlen : msgs.length ≠ 0 := by
    intro h0; exact h (List.length_eq_zero.mp h0)
  have hmsgs : (applyHistorySuccess st (some msgs)).messages = assignFreshIds st.nextUuid msgs := by
    simp [applyHistorySuccess, hlen]
  refine ⟨?_, ?_, ?_, rfl, rfl⟩
  · rw [hmsgs]; exact assignFreshIds_spec msgs st.nextUuid
  · rw [hmsgs]; exact assignFreshIds_pairwise msgs st.nextUuid
  · intro hold m hm hmem
    rw [hmsgs] at hm
    exact absurd (assignFreshIds_mem_le msgs st.nextUuid m hm) (Nat.not_le.mpr (hold m hmem))

/-- C3 witness: the amended statement at a one-element history
response. -/
theorem c3_amended_witness :
    (applyHistorySuccess baseState (some [{ role := Role.user, content := "hi" }])).messages.Pairwise
      (fun a b => a.id < b.id) ∧
    applyHistorySuccess baseState none = baseState :=
  ⟨(c3_amended baseState [{ role := Role.user, content := "hi" }] (by decide)).2.1,
   (c3_amended baseState [{ role := Role.user, content := "hi" }] (by decide)).2.2.2.1⟩

/-- C4 (counterexample): the whitespace-only input `" "` has trimmed
length 0 ≤ 3000 and is sent from a logged-in state, yet `sendMessage`
returns at the `if (!trimmed)` guard and appends nothing — no user and
no assistant message — so the claim fails for inputs whose trimmed
form is empty. -/
theorem c4_counterexample :
    baseState.userToken = some "u" ∧
    (String.mk (jsTrimChars " ".data)).length ≤ 3000 ∧
    (sendMessageLocalPhase baseState " ").messages = [] := by
  decide

/-- C4 (amended): for every input whose trimmed form is non-empty and
of length at most 3000, sent while a user token is present,
`sendMessage` appends exactly one user message carrying the trimmed
text and exactly one assistant message with empty content — in that
order, at the end of the log, before any network request is issued. -/
theorem c4_amended (st : AppState) (text : String)
    (hu : ¬ st.userToken = none)
    (hne : ¬ String.mk (jsTrimChars text.data) = "")
    (hlen : (String.mk (jsTrimChars text.data)).length ≤ 3000) :
    (sendMessageLocalPhase st text).messages =
      st.messages ++
        [ { id := st.nextUuid, role := Role.user, content := String.mk (jsTrimChars text.data) },
          { id := st.nextUuid + 1, role := Role.assistant, content := "" } ] := by
  simp only [sendMessageLocalPhase]
  rw [if_neg hu, if_neg hne, if_neg (by omega)]

/-- C4 witness: the amended statement at input `"hello"`. -/
theorem c4_amended_witness :
    (sendMessageLocalPhase baseState "hello").messages =
      [ { id := 0, role := Role.user, content := "hello" },
        { id := 1, role := Role.assistant, content := "" } ] :=
  (c4_amended baseState "hello" (by decide) (by decide) (by decide)).trans (by decide)

/-- C5: for EVERY decoded event payload whose `done` property is set
(truthy — in particular `true`), the line carrying it maps the stream
state to the same state with only the loading flag cleared — log,
buffer and error slot untouched, and the payload's other properties
(such as a `content`) skipped by the `continue` — and the read loop
continues: consuming any remaining chunks from the resulting state is
consuming them from the flag-cleared state, so the loop ends only at
the end of the chunk list (transport end-of-data), never at the
payload. -/
theorem c5_done_event (aid : Nat) (st : StreamSt) (line : List Char) (data : JVal)
    (chunks : List (List Char))
    (hdata : ("data:".data).isPrefixOf line = true)
    (hparse : jsonParse (jsTrimChars (line.drop 5)) = some data)
    (hdone : (data.lookupField "done".data).elim false JVal.truthy = true) :
    processLine aid st line = { st with isLoading := false } ∧
    runChunks aid (processLine aid st line) chunks =
      runChunks aid { st with isLoading := false } chunks := by
  have hne : (jsTrimChars (line.drop 5)).isEmpty = false := by
    cases hl : jsTrimChars (line.drop 5) with
    | nil =>
      rw [hl] at hparse
      rw [show jsonParse [] = none from rfl] at hparse
      exact Option.noConfusion hparse
    | cons c cs => rfl
  have key : processLine aid st line = { st with isLoading := false } := by
    simp [processLine, hdata, hne, hparse, hdone]
  exact ⟨key, by rw [key]⟩

/-- C5 witness: a payload carrying both `done: true` and a `content`
only clears the loading flag (the content is not appended). -/
theorem c5_done_event_witness :
    processLine 1 { buffer := [], messages := [], isLoading := true, error := none }
        ("data: \x7b\"done\":true,\"content\":\"x\"\x7d".data) =
      { buffer := [], messages := [], isLoading := false, error := none } :=
  (c5_done_event 1 { buffer := [], messages := [], isLoading := true, error := none }
      ("data: \x7b\"done\":true,\"content\":\"x\"\x7d".data)
      (JVal.jobj [("done".data, JVal.jbool true), ("content".data, JVal.jstr ['x'])])
      [] (by decide) rfl rfl).1

/-- C6: applying a decoded content event to the log — the `setMessages`
mapper of the stream loop — relates old and new logs pointwise, in
order and with the length preserved: a message whose identifier equals
the stream's assistant-message id gets exactly the payload content
appended to its content (identifier and role untouched), and every
other message is returned entirely unchanged. -/
theorem c6_content_event_frame (aid : Nat) (c : String) (msgs : List ChatMessage) :
    List.Forall₂ (fun m m' =>
        (m.id = aid → m' = { m with content := m.content ++ c }) ∧
        (¬ m.id = aid → m' = m))
      msgs (applyContentEvent aid c msgs) := by
  induction msgs with
  | nil => exact List.Forall₂.nil
  | cons hd tl ih =>
    simp only [applyContentEvent, List.map_cons]
    refine List.Forall₂.cons ⟨fun h => ?_, fun h => ?_⟩ ih
    · rw [if_pos h]
    · rw [if_neg h]

/-- C6 witness: the frame relation evaluated on a concrete two-message
log with payload content `"cd"` aimed at id 1. -/
theorem c6_content_event_frame_witness :
    List.Forall₂ (fun m m' =>
        (m.id = 1 → m' = { m with content := m.content ++ "cd" }) ∧
        (¬ m.id = 1 → m' = m))
      [ { id := 0, role := Role.user, content := "hi" },
        { id := 1, role := Role.assistant, content := "ab" } ]
      (applyContentEvent 1 "cd"
        [ { id := 0, role := Role.user, content := "hi" },
          { id := 1, role := Role.assistant, content := "ab" } ]) :=
  c6_content_event_frame 1 "cd" _

/-- C7: EVERY `data:` line whose remainder fails to parse as JSON is
discarded: such a line is the identity on the stream state — the log,
the loading flag and the error slot are exactly as they were, so
nothing is raised or recorded — and the read loop continues: consuming
any remaining chunks from the resulting state is consuming them from
the unchanged state, through to the end of the chunk list. -/
theorem c7_bad_json_discarded (aid : Nat) (st : StreamSt) (line : List Char)
    (chunks : List (List Char))
    (hdata : ("data:".data).isPrefixOf line = true)
    (hfail : jsonParse (jsTrimChars (line.drop 5)) = none) :
    processLine aid st line = st ∧
    runChunks aid (processLine aid st line) chunks = runChunks aid st chunks := by
  have key : processLine aid st line = st := by
    by_cases hemp : (jsTrimChars (line.drop 5)).isEmpty = true
    · simp [processLine, hdata, hemp]
    · simp [processLine, hdata, hemp, hfail]
  exact ⟨key, by rw [key]⟩

/-- C7 witness: the unparseable line `"data: not-json"` consumed from a
concrete state. -/
theorem c7_bad_json_discarded_witness :
    processLine 1 { buffer := [], messages := [], isLoading := true, error := none }
        ("data: not-json".data) =
      { buffer := [], messages := [], isLoading := true, error := none } :=
  (c7_bad_json_discarded 1 { buffer := [], messages := [], isLoading := true, error := none }
      ("data: not-json".data) [] (by decide) rfl).1

/-- C8: the 401/403 branch of the history load forces the logout —
user token, session token, the stored token/key entries, the session
list, the active session id and the message log are all cleared — and
then sets the error slot to the fixed message
`"Session expired. Please log in again."`, so the fixed message is
present after the forced logout rather than cleared by it. -/
theorem c8_history_expiry (st : AppState) :
    (historyAuthFailure st).userToken = none ∧
    (historyAuthFailure st).sessionToken = none ∧
    (historyAuthFailure st).storedUserToken = none ∧
    (historyAuthFailure st).storedSessionToken = none ∧
    (historyAuthFailure st).storedSessionId = none ∧
    (historyAuthFailure st).sessions = [] ∧
    (historyAuthFailure st).currentSessionId = none ∧
    (historyAuthFailure st).messages = [] ∧
    (historyAuthFailure st).error = some "Session expired. Please log in again." :=
  ⟨rfl, rfl, rfl, rfl, rfl, rfl, rfl, rfl, rfl⟩

/-- C8 witness: the forced logout evaluated from the logged-in state. -/
theorem c8_history_expiry_witness :
    (historyAuthFailure baseState).error = some "Session expired. Please log in again." ∧
    (historyAuthFailure baseState).messages = [] :=
  ⟨(c8_history_expiry baseState).2.2.2.2.2.2.2.2,
   (c8_history_expiry baseState).2.2.2.2.2.2.2.1⟩

/-- C9: `deriveSessionName` trims the input, collapses internal
whitespace runs to single spaces, passes labels of length at most 40
through unchanged, truncates longer ones to the first 40 characters
(right-trimmed, as the spec's "first 40 trimmed characters") with the
ellipsis marker appended, and maps whitespace-only input to the empty
label; `"   hello   world  "` gives `"hello world"` and the
50-character all-'a' string gives its first 40 characters followed by
the marker. -/
theorem c9_deriveSessionName (s : String) :
    deriveSessionName "   hello   world  " = "hello world" ∧
    deriveSessionName (String.mk (List.replicate 50 'a')) =
      String.mk (List.replicate 40 'a') ++ sessionNameEllipsis ∧
    (s.data.all isJsWs → deriveSessionName s = "") ∧
    ((collapseWs false (jsTrimChars s.data)).length ≤ SESSION_NAME_MAX_LENGTH →
      deriveSessionName s = String.mk (collapseWs false (jsTrimChars s.data))) ∧
    (SESSION_NAME_MAX_LENGTH < (collapseWs false (jsTrimChars s.data)).length →
      deriveSessionName s =
        String.mk (trimEndChars ((collapseWs false (jsTrimChars s.data)).take SESSION_NAME_MAX_LENGTH)) ++
          sessionNameEllipsis) := by
  refine ⟨by decide, by decide, ?_, ?_, ?_⟩
  · intro hws
    have h1 : jsTrimChars s.data = [] := by
      have h2 : s.data.dropWhile isJsWs = [] :=
        List.dropWhile_eq_nil_iff.mpr fun x hx => List.all_eq_true.mp hws x hx
      simp [jsTrimChars, trimEndChars, h2]
    simp only [deriveSessionName, h1]
    decide
  · intro hle
    by_cases h0 : String.mk (collapseWs false (jsTrimChars s.data)) = ""
    · simp [deriveSessionName, h0]
    · simp [deriveSessionName, h0, hle]
  · intro hgt
    have h0 : ¬ String.mk (collapseWs false (jsTrimChars s.data)) = "" := by
      intro h0
      have h2 : collapseWs false (jsTrimChars s.data) = [] := congrArg String.data h0
      rw [h2] at hgt
      exact absurd hgt (by decide)
    have hnle : ¬ (collapseWs false (jsTrimChars s.data)).length ≤ SESSION_NAME_MAX_LENGTH := by
      omega
    simp [deriveSessionName, h0, hnle]

/-- C9 witness: whitespace-only and short inputs evaluated through the
general clauses. -/
theorem c9_deriveSessionName_witness :
    deriveSessionName " \t " = "" ∧ deriveSessionName "abc" = "abc" :=
  ⟨(c9_deriveSessionName " \t ").2.2.1 (by decide),
   ((c9_deriveSessionName "abc").2.2.2.1 (by decide)).trans (by decide)⟩

/-- C10: a fragment holding no blank-line separator — in particular the
remainder of the byte stream after its last `"\n\n"` — is only carried
in the buffer by the loop iteration: the log, the loading flag and the
error slot are untouched and no parse of it is attempted; and the loop
consumes exactly the chunk list, so at transport end-of-data the
leftover buffer is dropped without ever contributing to the assistant
content. -/
theorem c10_trailing_fragment (aid : Nat) (st : StreamSt) (f : List Char)
    (h : hasBlankSep (st.buffer ++ f) = false) :
    processChunk aid st f = { st with buffer := st.buffer ++ f } ∧
    runChunks aid { st with buffer := st.buffer ++ f } [] =
      { st with buffer := st.buffer ++ f } := by
  refine ⟨?_, rfl⟩
  simp only [processChunk]
  rw [splitBlank_of_no_sep _ h []]
  rfl

/-- C10 witness: an event arriving after the last separator — a whole
`data:` line with well-formed JSON but missing its terminating blank
line — is buffered, not applied. -/
theorem c10_trailing_fragment_witness :
    processChunk 1 { buffer := [], messages := [], isLoading := true, error := none }
        ("data: \x7b\"content\":\"zz\"\x7d".data) =
      { buffer := "data: \x7b\"content\":\"zz\"\x7d".data, messages := [],
        isLoading := true, error := none } :=
  ((c10_trailing_fragment 1 { buffer := [], messages := [], isLoading := true, error := none }
      ("data: \x7b\"content\":\"zz\"\x7d".data) (by decide)).1).trans (by decide)

end AgentChat
